import Mathlib

/-!
Verification development for the Flood-Forecasting ELT repository.

We shallowly embed the data-loading utilities of the repository:
the key-based SQL upsert (`orchestration/utils/timeseries.py` and
`orchestration/resources/duckdb.py`), the high-watermark computation,
the dataset merge and artifact-version cleanup of the W&B export
scripts, the Open-Meteo extraction adapter's error path, and the
schema fingerprint. Tables are lists of rows, a row is an association
list from column names to SQL values, and SQL three-valued equality is
collapsed to "the condition evaluates to TRUE".
-/

namespace FloodForecasting

/-- A SQL value stored in a DuckDB cell: NULL, a string, or a numeric
(timestamps are represented as integers). -/
inductive SqlVal where
  | null
  | str (s : String)
  | int (n : Int)
  deriving DecidableEq, Repr

/-- A table row: an association list from column name to value. -/
abbrev Row := List (String × SqlVal)

/-- Value of column `c` in row `r` (NULL when the column is absent). -/
def Row.get (r : Row) (c : String) : SqlVal :=
  match r.find? (fun p => p.1 == c) with
  | some p => p.2
  | none => SqlVal.null

/-- SQL equality condition `a = b` evaluates to TRUE: any comparison
involving NULL is UNKNOWN, hence not TRUE. -/
def sqlEq (a b : SqlVal) : Bool :=
  match a, b with
  | SqlVal.null, _ => false
  | _, SqlVal.null => false
  | x, y => x == y

/-- The WHERE clause of the NOT EXISTS guard in `upsert_timeseries`:
`t.c1 = df.c1 AND ... AND t.ck = df.ck` evaluates to TRUE. -/
def rowMatches (keys : List String) (t r : Row) : Bool :=
  keys.all (fun c => sqlEq (t.get c) (r.get c))

/-- The rows inserted by the `INSERT INTO ... SELECT df.* FROM df WHERE
NOT EXISTS (...)` statement: rows of `df` with no TRUE key match against
the pre-insert table. -/
def newRows (table df : List Row) (keys : List String) : List Row :=
  df.filter (fun r => !(table.any (fun t => rowMatches keys t r)))

/-- `upsert_timeseries` from `orchestration/utils/timeseries.py`.
The state of the single target raw table is `none` when the table does
not exist. Returns the new table state together with the Python return
value (`len(df)` on table creation, `after_count - before_count`
otherwise). -/
def upsert_timeseries (db : Option (List Row)) (df : List Row)
    (key_columns : List String) : Option (List Row) × Int :=
  match db with
  | none => (some df, (df.length : Int))
  | some table =>
      let before := (table.length : Int)
      let table2 := table ++ newRows table df key_columns
      (some table2, (table2.length : Int) - before)

/-- Configuration fields of `DuckDBResource` relevant to writes. -/
structure DuckDBResource where
  is_production : Bool := false
  full_refresh : Bool := false
  local_days_back : Int := 30

/-- `DuckDBResource.write_dataframe` from
`orchestration/resources/duckdb.py`: optional drop on
`full_refresh`/`replace`, create when the table is missing, key-based
upsert when `key_columns` is a non-empty list (Python truthiness of
`if key_columns:`), plain append otherwise. -/
def write_dataframe (res : DuckDBResource) (db : Option (List Row))
    (df : List Row) (key_columns : Option (List String)) (replace : Bool) :
    Option (List Row) × Int :=
  let db1 := if res.full_refresh || replace then none else db
  match db1 with
  | none => (some df, (df.length : Int))
  | some table =>
      match key_columns with
      | some (k :: ks) =>
          let before := (table.length : Int)
          let table2 := table ++ newRows table df (k :: ks)
          (some table2, (table2.length : Int) - before)
      | _ => (some (table ++ df), (df.length : Int))

/-- The spec's notion of an existing row agreeing with a fresh row on
every key column (SQL equality: agreement requires non-NULL values). -/
def agreesOnKeys (keys : List String) (t r : Row) : Prop :=
  ∀ c ∈ keys, t.get c ≠ SqlVal.null ∧ t.get c = r.get c

theorem sqlEq_true_iff (a b : SqlVal) :
    sqlEq a b = true ↔ a ≠ SqlVal.null ∧ a = b := by
  cases a <;> cases b <;> simp [sqlEq]

theorem rowMatches_true_iff (keys : List String) (t r : Row) :
    rowMatches keys t r = true ↔ agreesOnKeys keys t r := by
  unfold rowMatches agreesOnKeys
  rw [List.all_eq_true]
  constructor
  · intro h c hc
    exact (sqlEq_true_iff _ _).mp (h c hc)
  · intro h c hc
    exact (sqlEq_true_iff _ _).mpr (h c hc)

theorem mem_newRows_iff (table df : List Row) (keys : List String) (r : Row) :
    r ∈ newRows table df keys ↔
      r ∈ df ∧ ∀ t ∈ table, ¬ agreesOnKeys keys t r := by
  unfold newRows
  rw [List.mem_filter]
  constructor
  · rintro ⟨hmem, hflt⟩
    refine ⟨hmem, fun t ht hagree => ?_⟩
    simp only [Bool.not_eq_true', List.any_eq_false] at hflt
    exact absurd ((rowMatches_true_iff keys t r).mpr hagree) (by simpa using hflt t ht)
  · rintro ⟨hmem, hno⟩
    refine ⟨hmem, ?_⟩
    simp only [Bool.not_eq_true', List.any_eq_false]
    intro t ht
    by_contra hb
    exact hno t ht ((rowMatches_true_iff keys t r).mp (by simpa using hb))

theorem newRows_eq_nil_of_covered (table df : List Row) (keys : List String)
    (h : ∀ r ∈ df, table.any (fun t => rowMatches keys t r) = true) :
    newRows table df keys = [] := by
  unfold newRows
  rw [List.filter_eq_nil_iff]
  intro r hr
  simp [h r hr]

theorem rowMatches_self (keys : List String) (r : Row)
    (h : ∀ c ∈ keys, r.get c ≠ SqlVal.null) :
    rowMatches keys r r = true :=
  (rowMatches_true_iff keys r r).mpr (fun c hc => ⟨h c hc, rfl⟩)

/-- C1: with a non-empty key-column list, `upsert_timeseries` on a missing
table creates it holding all rows of `df` and returns `len(df)`; on an
existing table it inserts exactly the rows of `df` on which no existing
row agrees on every key column, returning the number of rows so inserted;
and `DuckDBResource.write_dataframe` with `key_columns` given and neither
`replace` nor `full_refresh` set behaves identically. -/
theorem upsert_timeseries_spec (table df : List Row) (keys : List String)
    (hkeys : keys ≠ []) :
    (upsert_timeseries none df keys = (some df, (df.length : Int))) ∧
    (∃ ins, upsert_timeseries (some table) df keys =
        (some (table ++ ins), (ins.length : Int)) ∧
      ∀ r, r ∈ ins ↔ r ∈ df ∧ ∀ t ∈ table, ¬ agreesOnKeys keys t r) ∧
    (∀ res : DuckDBResource, res.full_refresh = false →
      write_dataframe res (some table) df (some keys) false =
        upsert_timeseries (some table) df keys) ∧
    (∀ res : DuckDBResource, res.full_refresh = false →
      write_dataframe res none df (some keys) false =
        (some df, (df.length : Int))) := by
  obtain ⟨k, ks, rfl⟩ : ∃ k ks, keys = k :: ks := by
    cases keys with
    | nil => exact absurd rfl hkeys
    | cons k ks => exact ⟨k, ks, rfl⟩
  refine ⟨rfl, ⟨newRows table df (k :: ks), ?_, mem_newRows_iff table df (k :: ks)⟩,
    ?_, ?_⟩
  · unfold upsert_timeseries
    simp only [List.length_append]
    push_cast
    ring_nf
  · intro res hfr
    simp [write_dataframe, upsert_timeseries, hfr]
  · intro res hfr
    simp [write_dataframe, hfr]

theorem upsert_timeseries_spec_witness :
    ((["site_id"] : List String) ≠ []) ∧
    upsert_timeseries none [[("site_id", SqlVal.int 1)]] ["site_id"] =
      (some [[("site_id", SqlVal.int 1)]], 1) :=
  ⟨by decide,
    (upsert_timeseries_spec [] [[("site_id", SqlVal.int 1)]] ["site_id"]
      (by decide)).1⟩

/-- C5: when the key columns of every row of `df` are NULL-free, upserting
`df` twice in succession leaves the table identical to the state after the
first call, and the second call returns 0. -/
theorem upsert_timeseries_idempotent (db : Option (List Row)) (df : List Row)
    (keys : List String)
    (hnull : ∀ r ∈ df, ∀ c ∈ keys, r.get c ≠ SqlVal.null) :
    upsert_timeseries (upsert_timeseries db df keys).1 df keys =
      ((upsert_timeseries db df keys).1, 0) := by
  have hself : ∀ r ∈ df, rowMatches keys r r = true :=
    fun r hr => rowMatches_self keys r (hnull r hr)
  cases db with
  | none =>
      have hnil : newRows df df keys = [] :=
        newRows_eq_nil_of_covered df df keys (fun r hr =>
          List.any_eq_true.mpr ⟨r, hr, hself r hr⟩)
      simp [upsert_timeseries, hnil]
  | some table =>
      have hcover : ∀ r ∈ df,
          (table ++ newRows table df keys).any
            (fun t => rowMatches keys t r) = true := by
        intro r hr
        rw [List.any_eq_true]
        by_cases h : table.any (fun t => rowMatches keys t r) = true
        · obtain ⟨t, ht, hm⟩ := List.any_eq_true.mp h
          exact ⟨t, List.mem_append_left _ ht, hm⟩
        · refine ⟨r, List.mem_append_right _ ?_, hself r hr⟩
          unfold newRows
          rw [List.mem_filter]
          exact ⟨hr, by simp [h]⟩
      have hnil : newRows (table ++ newRows table df keys) df keys = [] :=
        newRows_eq_nil_of_covered _ df keys hcover
      simp [upsert_timeseries, hnil]

theorem upsert_timeseries_idempotent_witness :
    (∀ r ∈ [[("site_id", SqlVal.int 1)]], ∀ c ∈ ["site_id"],
      Row.get r c ≠ SqlVal.null) ∧
    upsert_timeseries
        (upsert_timeseries none [[("site_id", SqlVal.int 1)]] ["site_id"]).1
        [[("site_id", SqlVal.int 1)]] ["site_id"] =
      ((upsert_timeseries none [[("site_id", SqlVal.int 1)]] ["site_id"]).1, 0) :=
  ⟨by decide,
    upsert_timeseries_idempotent none [[("site_id", SqlVal.int 1)]] ["site_id"]
      (by decide)⟩

/-- C6: a row carrying NULL in some key column never satisfies the NOT
EXISTS guard's key match against any existing row, so it is inserted on
every call and repeated upserts of such a batch keep strictly growing the
table. -/
theorem null_key_rows_always_inserted (df : List Row) (keys : List String)
    (r : Row) (c : String) (hr : r ∈ df) (hc : c ∈ keys)
    (hnull : r.get c = SqlVal.null) :
    (∀ t : Row, rowMatches keys t r = false) ∧
    (∀ table : List Row, r ∈ newRows table df keys) ∧
    (∀ table : List Row,
      table.length < ((upsert_timeseries (some table) df keys).1.getD []).length) := by
  have hfalse : ∀ t : Row, rowMatches keys t r = false := by
    intro t
    rw [Bool.eq_false_iff]
    intro hall
    have hck := List.all_eq_true.mp hall c hc
    rw [sqlEq_true_iff] at hck
    exact hck.1 (hck.2.trans hnull)
  have hins : ∀ table : List Row, r ∈ newRows table df keys := by
    intro table
    unfold newRows
    rw [List.mem_filter]
    refine ⟨hr, ?_⟩
    simp only [Bool.not_eq_eq_eq_not, Bool.not_true, List.any_eq_false]
    intro t _
    simp [hfalse t]
  refine ⟨hfalse, hins, ?_⟩
  intro table
  have hlen : 0 < (newRows table df keys).length :=
    List.length_pos.mpr (List.ne_nil_of_mem (hins table))
  simp only [upsert_timeseries, Option.getD_some, List.length_append]
  omega

theorem null_key_rows_always_inserted_witness :
    ([("site_id", SqlVal.null)] ∈ [[("site_id", SqlVal.null)]] ∧
      "site_id" ∈ ["site_id"] ∧
      Row.get [("site_id", SqlVal.null)] "site_id" = SqlVal.null) ∧
    [("site_id", SqlVal.null)] ∈
      newRows [[("site_id", SqlVal.null)]] [[("site_id", SqlVal.null)]]
        ["site_id"] :=
  ⟨by decide,
    (null_key_rows_always_inserted [[("site_id", SqlVal.null)]] ["site_id"]
      [("site_id", SqlVal.null)] "site_id" (by decide) (by decide)
      (by decide)).2.1 [[("site_id", SqlVal.null)]]⟩

/-- C7: the upsert only inserts: on an existing table, both
`upsert_timeseries` and `write_dataframe` (with key columns given and
neither `replace` nor `full_refresh` set) leave every pre-existing row in
place and unchanged, appending the new rows after them. -/
theorem upsert_preserves_existing_rows (table df : List Row)
    (keys : List String) (res : DuckDBResource)
    (hfr : res.full_refresh = false) (hkeys : keys ≠ []) :
    ((upsert_timeseries (some table) df keys).1 =
        some (table ++ newRows table df keys) ∧
      ∀ r ∈ table, r ∈ (upsert_timeseries (some table) df keys).1.getD []) ∧
    ((write_dataframe res (some table) df (some keys) false).1 =
        some (table ++ newRows table df keys) ∧
      ∀ r ∈ table,
        r ∈ (write_dataframe res (some table) df (some keys) false).1.getD []) := by
  obtain ⟨k, ks, rfl⟩ : ∃ k ks, keys = k :: ks := by
    cases keys with
    | nil => exact absurd rfl hkeys
    | cons k ks => exact ⟨k, ks, rfl⟩
  have heq : (write_dataframe res (some table) df (some (k :: ks)) false).1 =
      some (table ++ newRows table df (k :: ks)) := by
    simp [write_dataframe, hfr]
  refine ⟨⟨rfl, ?_⟩, heq, ?_⟩
  · intro r hrt
    simp only [upsert_timeseries, Option.getD_some]
    exact List.mem_append_left _ hrt
  · intro r hrt
    rw [heq, Option.getD_some]
    exact List.mem_append_left _ hrt

theorem upsert_preserves_existing_rows_witness :
    ((⟨false, false, 30⟩ : DuckDBResource).full_refresh = false ∧
      (["site_id"] : List String) ≠ []) ∧
    (upsert_timeseries (some [[("site_id", SqlVal.int 7)]]) [] ["site_id"]).1 =
      some ([[("site_id", SqlVal.int 7)]] ++
        newRows [[("site_id", SqlVal.int 7)]] [] ["site_id"]) :=
  ⟨⟨rfl, by decide⟩,
    ((upsert_preserves_existing_rows [[("site_id", SqlVal.int 7)]] []
      ["site_id"] ⟨false, false, 30⟩ rfl (by decide)).1).1⟩

/-- A value of the watermark column: DuckDB DATE (day number) or
TIMESTAMP (hours since the epoch; the unit is irrelevant, a day is 24
hours). -/
inductive TimeVal where
  | date (d : Int)
  | datetime (t : Int)
  deriving DecidableEq, Repr

/-- Promotion used both by DuckDB's date-to-timestamp comparison cast and
by `datetime.combine(val, datetime.min.time())` in `get_high_watermark`:
a date becomes the datetime at midnight of that date. -/
def TimeVal.toDatetime : TimeVal → Int
  | TimeVal.date d => 24 * d
  | TimeVal.datetime t => t

/-- Maximum of a list of time values under the timestamp order (used to
model the SQL `MAX` aggregate). -/
def listMaxBy : List TimeVal → Option TimeVal
  | [] => none
  | v :: vs =>
      match listMaxBy vs with
      | none => some v
      | some m => if m.toDatetime < v.toDatetime then some v else some m

/-- `SELECT MAX(datetime_column) FROM raw.table`: NULLs are ignored, and
the result is NULL when no non-NULL value exists. -/
def sqlMaxTime (col : List (Option TimeVal)) : Option TimeVal :=
  listMaxBy (col.filterMap id)

/-- `get_high_watermark` from `orchestration/utils/timeseries.py`: `none`
when the raw table does not exist (`db = none`) or `MAX` is NULL,
otherwise the maximum, a date value promoted to midnight. -/
def get_high_watermark (db : Option (List (Option TimeVal))) : Option Int :=
  match db with
  | none => none
  | some col =>
      match sqlMaxTime col with
      | none => none
      | some (TimeVal.datetime t) => some t
      | some (TimeVal.date d) => some (24 * d)

/-- Start of the fetch window computed by `build_usgs_streamflow_asset`
and `weather_forcing_raw`: `watermark - timedelta(days=incremental_days)`
when a watermark exists, `end_date - timedelta(days=days_back)`
otherwise (times in hours). -/
def asset_start_date (watermark : Option Int)
    (end_date incremental_days days_back : Int) : Int :=
  match watermark with
  | some w => w - 24 * incremental_days
  | none => end_date - 24 * days_back

theorem listMaxBy_mem_le (l : List TimeVal) (hne : l ≠ []) :
    ∃ m, listMaxBy l = some m ∧ m ∈ l ∧
      ∀ v ∈ l, v.toDatetime ≤ m.toDatetime := by
  induction l with
  | nil => exact absurd rfl hne
  | cons v vs ih =>
      cases hvs : vs with
      | nil =>
          refine ⟨v, ?_, List.mem_cons_self v _, ?_⟩
          · simp [listMaxBy]
          · intro u hu
            rw [List.mem_singleton] at hu
            exact hu ▸ le_refl _
      | cons w ws =>
          obtain ⟨m, hm, hmem, hub⟩ := ih (by simp [hvs])
          rw [← hvs] at *
          by_cases hlt : m.toDatetime < v.toDatetime
          · refine ⟨v, ?_, List.mem_cons_self v _, ?_⟩
            · simp [listMaxBy, hm, hlt]
            · intro u hu
              rcases List.mem_cons.mp hu with h | h
              · exact h ▸ le_refl _
              · exact le_of_lt (lt_of_le_of_lt (hub u h) hlt)
          · refine ⟨m, ?_, List.mem_cons_of_mem v hmem, ?_⟩
            · simp [listMaxBy, hm, hlt]
            · intro u hu
              rcases List.mem_cons.mp hu with h | h
              · exact h ▸ le_of_not_lt hlt
              · exact hub u h

theorem get_high_watermark_eq_map (col : List (Option TimeVal)) :
    get_high_watermark (some col) =
      (sqlMaxTime col).map TimeVal.toDatetime := by
  cases h : sqlMaxTime col with
  | none => simp [get_high_watermark, h]
  | some v => cases v <;> simp [get_high_watermark, h, TimeVal.toDatetime]

/-- C2: `get_high_watermark` returns the maximum of the timestamp column
(a date promoted to the datetime at midnight), `none` when the table does
not exist or the maximum is NULL; and the extraction window starts at
`watermark - incremental_days` when the watermark exists, otherwise at
the run's end date minus `days_back`. -/
theorem high_watermark_window_spec :
    (get_high_watermark none = none) ∧
    (∀ col : List (Option TimeVal),
      (col.filterMap id = [] → get_high_watermark (some col) = none) ∧
      (col.filterMap id ≠ [] → ∃ m, get_high_watermark (some col) = some m ∧
        (∃ v ∈ col.filterMap id, v.toDatetime = m) ∧
        ∀ v ∈ col.filterMap id, v.toDatetime ≤ m)) ∧
    (∀ w e i b : Int, asset_start_date (some w) e i b = w - 24 * i) ∧
    (∀ e i b : Int, asset_start_date none e i b = e - 24 * b) := by
  refine ⟨rfl, ?_, fun w e i b => rfl, fun e i b => rfl⟩
  intro col
  constructor
  · intro hempty
    rw [get_high_watermark_eq_map, sqlMaxTime, hempty]
    rfl
  · intro hne
    obtain ⟨m, hm, hmem, hub⟩ := listMaxBy_mem_le (col.filterMap id) hne
    refine ⟨m.toDatetime, ?_, ⟨m, hmem, rfl⟩, hub⟩
    rw [get_high_watermark_eq_map, sqlMaxTime, hm]
    rfl

theorem high_watermark_window_spec_witness :
    (([some (TimeVal.date 1), none] : List (Option TimeVal)).filterMap id
      ≠ []) ∧
    (∃ m, get_high_watermark (some [some (TimeVal.date 1), none]) = some m ∧
      (∃ v ∈ ([some (TimeVal.date 1), none] :
          List (Option TimeVal)).filterMap id, v.toDatetime = m) ∧
      ∀ v ∈ ([some (TimeVal.date 1), none] :
          List (Option TimeVal)).filterMap id, v.toDatetime ≤ m) :=
  ⟨by decide,
    (high_watermark_window_spec.2.1 [some (TimeVal.date 1), none]).2
      (by decide)⟩

/-- A row of the `flood_model` dataset: the two join-key columns and a
payload standing for the remaining columns. -/
structure MLRow where
  site_id : String
  observation_hour : Int
  payload : Int
  deriving DecidableEq, Repr

/-- The (site_id, observation_hour) key of a dataset row. -/
def MLRow.key (r : MLRow) : String × Int := (r.site_id, r.observation_hour)

/-- The equality test of the polars join on `["site_id",
"observation_hour"]`. -/
def keyEq (l r : MLRow) : Bool :=
  (l.site_id == r.site_id) && (l.observation_hour == r.observation_hour)

/-- The polars anti-join of `merge_datasets`: rows of the existing
artifact whose key matches no local row. -/
def antiJoinKeys (existing_df local_df : List MLRow) : List MLRow :=
  existing_df.filter (fun r => !(local_df.any (fun l => keyEq l r)))

/-- `merge_datasets` from `scripts/upload_dataset.py`: local data as-is
when no artifact exists, otherwise local data concatenated with the
anti-joined existing rows. -/
def merge_datasets (local_df : List MLRow) (existing : Option (List MLRow)) :
    List MLRow :=
  match existing with
  | none => local_df
  | some existing_df => local_df ++ antiJoinKeys existing_df local_df

theorem keyEq_true_iff (l r : MLRow) : keyEq l r = true ↔ l.key = r.key := by
  simp [keyEq, MLRow.key, Prod.ext_iff]

/-- C3: `merge_datasets` returns the local DataFrame unchanged when no
existing artifact is given; otherwise it returns the local rows followed
by exactly those existing rows whose (site_id, observation_hour) key does
not occur locally, so keys present in both inputs survive only through
local rows, and the merged row count is the local count plus the count of
retained existing rows. -/
theorem merge_datasets_spec (local_df existing_df : List MLRow) :
    (merge_datasets local_df none = local_df) ∧
    (merge_datasets local_df (some existing_df) =
      local_df ++ antiJoinKeys existing_df local_df) ∧
    (∀ r, r ∈ antiJoinKeys existing_df local_df ↔
      r ∈ existing_df ∧ ∀ l ∈ local_df, l.key ≠ r.key) ∧
    (∀ r ∈ merge_datasets local_df (some existing_df),
      r.key ∈ local_df.map MLRow.key → r ∈ local_df) ∧
    ((merge_datasets local_df (some existing_df)).length =
      local_df.length + (antiJoinKeys existing_df local_df).length) := by
  have hmem : ∀ r, r ∈ antiJoinKeys existing_df local_df ↔
      r ∈ existing_df ∧ ∀ l ∈ local_df, l.key ≠ r.key := by
    intro r
    unfold antiJoinKeys
    rw [List.mem_filter]
    simp only [Bool.not_eq_eq_eq_not, Bool.not_true, List.any_eq_false]
    constructor
    · rintro ⟨he, hno⟩
      exact ⟨he, fun l hl hk => hno l hl ((keyEq_true_iff l r).mpr hk)⟩
    · rintro ⟨he, hno⟩
      exact ⟨he, fun l hl hk => hno l hl ((keyEq_true_iff l r).mp hk)⟩
  refine ⟨rfl, rfl, hmem, ?_, ?_⟩
  · intro r hr hkey
    rcases List.mem_append.mp hr with h | h
    · exact h
    · obtain ⟨l, hl, hlk⟩ := List.mem_map.mp hkey
      exact absurd hlk (((hmem r).mp h).2 l hl)
  · exact List.length_append _ _

theorem merge_datasets_spec_witness :
    ((⟨"a", 1, 10⟩ : MLRow) ∈
        merge_datasets [⟨"a", 1, 10⟩] (some [⟨"a", 1, 99⟩, ⟨"b", 2, 5⟩]) ∧
      MLRow.key ⟨"a", 1, 10⟩ ∈ ([⟨"a", 1, 10⟩] : List MLRow).map MLRow.key) ∧
    (⟨"a", 1, 10⟩ : MLRow) ∈ ([⟨"a", 1, 10⟩] : List MLRow) :=
  ⟨⟨by decide, by decide⟩,
    (merge_datasets_spec [⟨"a", 1, 10⟩] [⟨"a", 1, 99⟩, ⟨"b", 2, 5⟩]).2.2.2.1
      ⟨"a", 1, 10⟩ (by decide) (by decide)⟩

/-- Names of the functions defined at top level in module
`elt.extraction.usgs`. -/
def usgsModuleFunctionNames : List String :=
  ["fetch_usgs_streamflow", "fetch_usgs_daily_streamflow", "get_site_info"]

/-- `getattr(usgs, name)` in `build_usgs_streamflow_asset`: `some name`
when the attribute exists, `none` when Python raises `AttributeError`. -/
def getattrUsgs (name : String) : Option String :=
  if name ∈ usgsModuleFunctionNames then some name else none

/-- `StreamflowAssetSpec` from `orchestration/assets/usgs_streamflow.py`. -/
structure StreamflowAssetSpec where
  name : String
  table_name : String
  time_column : String
  batch_size : Nat
  fetch_fn_name : String
  description : String

/-- The spec instantiated for the `usgs_streamflow_15min` asset. -/
def usgs_streamflow_15min_spec : StreamflowAssetSpec :=
  { name := "usgs_streamflow_15min"
    table_name := "streamflow_15min"
    time_column := "datetime"
    batch_size := 20
    fetch_fn_name := "fetch_usgs_streamflow"
    description :=
      "Raw USGS streamflow observations at 15-minute intervals (incremental)" }

/-- The spec instantiated for the `usgs_streamflow_daily` asset. -/
def usgs_streamflow_daily_spec : StreamflowAssetSpec :=
  { name := "usgs_streamflow_daily"
    table_name := "streamflow_daily"
    time_column := "date"
    batch_size := 50
    fetch_fn_name := "fetch_usgs_daily"
    description := "Raw USGS daily streamflow values (incremental)" }

/-- C4 fails on the code: the `usgs_streamflow_daily` asset names
`fetch_usgs_daily` as its fetch function, but module `elt.extraction.usgs`
defines `fetch_usgs_daily_streamflow`, so the `getattr` lookup raises
`AttributeError` instead of resolving to the daily-streamflow fetch
function; the 15-minute asset's `fetch_usgs_streamflow` does resolve. -/
theorem usgs_daily_fetch_fn_missing :
    getattrUsgs usgs_streamflow_daily_spec.fetch_fn_name = none ∧
    usgs_streamflow_daily_spec.fetch_fn_name = "fetch_usgs_daily" ∧
    getattrUsgs "fetch_usgs_daily_streamflow" =
      some "fetch_usgs_daily_streamflow" ∧
    getattrUsgs usgs_streamflow_15min_spec.fetch_fn_name =
      some "fetch_usgs_streamflow" := by
  decide

/-- A W&B artifact version as listed by `api.artifacts`. -/
structure ArtifactVersion where
  vname : String
  version : Nat
  deriving DecidableEq, Repr

/-- `delete_old_versions` from `scripts/upload_dataset.py`: when more than
one version exists it deletes `version_list[:-1]`, leaving only the last
element of the list as returned by the API (no sorting is performed).
Returns the pair (deleted versions, remaining versions). -/
def delete_old_versions (version_list : List ArtifactVersion) :
    List ArtifactVersion × List ArtifactVersion :=
  if 1 < version_list.length then
    (version_list.dropLast, version_list.drop (version_list.length - 1))
  else
    ([], version_list)

/-- C8 counterexample: on a two-element version list given in descending
version order, `delete_old_versions` deletes exactly the higher-numbered
version and keeps the lower one, so the claim that it always keeps the
highest version number is false. -/
theorem delete_old_versions_deletes_highest_cex :
    (delete_old_versions
        [⟨"flood-dataset", 1⟩, ⟨"flood-dataset", 0⟩]).1 =
      [⟨"flood-dataset", 1⟩] ∧
    (delete_old_versions
        [⟨"flood-dataset", 1⟩, ⟨"flood-dataset", 0⟩]).2 =
      [⟨"flood-dataset", 0⟩] ∧
    (1 : Nat) > 0 := by
  decide

theorem drop_length_sub_one_eq (l : List ArtifactVersion) (h : l ≠ []) :
    l.drop (l.length - 1) = [l.getLast h] := by
  induction l with
  | nil => exact absurd rfl h
  | cons a t ih =>
      cases t with
      | nil => rfl
      | cons b t2 =>
          have hrec := ih (by simp)
          simp only [List.length_cons, Nat.add_sub_cancel] at hrec ⊢
          rw [List.drop_succ_cons]
          rw [List.getLast_cons (by simp)]
          simpa using hrec

/-- C8 (amended): `delete_old_versions` deletes every version except the
last element of the list the API returned; when that list is in ascending
version order this keeps exactly the highest-numbered (most recent)
version and deletes all the strictly older ones. -/
theorem delete_old_versions_keeps_last_ascending
    (l : List ArtifactVersion)
    (hasc : l.Pairwise (fun a b => a.version < b.version))
    (hlen : 1 < l.length) :
    ∃ m, (delete_old_versions l).1 = l.dropLast ∧
      (delete_old_versions l).2 = [m] ∧ m ∈ l ∧
      (∀ u ∈ l, u.version ≤ m.version) ∧
      ∀ d ∈ (delete_old_versions l).1, d.version < m.version := by
  have hne : l ≠ [] := by
    intro he
    rw [he] at hlen
    exact absurd hlen (by simp)
  refine ⟨l.getLast hne, ?_, ?_, List.getLast_mem hne, ?_, ?_⟩
  · simp [delete_old_versions, hlen]
  · simp only [delete_old_versions, hlen, if_true]
    exact drop_length_sub_one_eq l hne
  · have hsplit := List.dropLast_append_getLast hne
    intro u hu
    rw [← hsplit] at hasc hu
    rcases List.mem_append.mp hu with hd | hl
    · have := (List.pairwise_append.mp hasc).2.2 u hd (l.getLast hne)
        (List.mem_singleton_self _)
      exact le_of_lt this
    · rw [List.mem_singleton] at hl
      exact hl ▸ le_refl _
  · have hsplit := List.dropLast_append_getLast hne
    intro d hd
    simp only [delete_old_versions, hlen, if_true] at hd
    conv at hasc => rw [← hsplit]
    exact (List.pairwise_append.mp hasc).2.2 d hd (l.getLast hne)
      (List.mem_singleton_self _)

theorem delete_old_versions_keeps_last_ascending_witness :
    (([⟨"flood-dataset", 0⟩, ⟨"flood-dataset", 1⟩] :
        List ArtifactVersion).Pairwise (fun a b => a.version < b.version) ∧
      1 < ([⟨"flood-dataset", 0⟩, ⟨"flood-dataset", 1⟩] :
        List ArtifactVersion).length) ∧
    ∃ m, (delete_old_versions
        [⟨"flood-dataset", 0⟩, ⟨"flood-dataset", 1⟩]).1 =
        ([⟨"flood-dataset", 0⟩, ⟨"flood-dataset", 1⟩] :
          List ArtifactVersion).dropLast ∧
      (delete_old_versions
        [⟨"flood-dataset", 0⟩, ⟨"flood-dataset", 1⟩]).2 = [m] ∧
      m ∈ ([⟨"flood-dataset", 0⟩, ⟨"flood-dataset", 1⟩] :
        List ArtifactVersion) ∧
      (∀ u ∈ ([⟨"flood-dataset", 0⟩, ⟨"flood-dataset", 1⟩] :
        List ArtifactVersion), u.version ≤ m.version) ∧
      ∀ d ∈ (delete_old_versions
        [⟨"flood-dataset", 0⟩, ⟨"flood-dataset", 1⟩]).1,
        d.version < m.version :=
  ⟨⟨by decide, by decide⟩,
    delete_old_versions_keeps_last_ascending
      [⟨"flood-dataset", 0⟩, ⟨"flood-dataset", 1⟩] (by decide) (by decide)⟩

/-- Polars dtypes appearing in the weather extraction. -/
inductive PlDtype where
  | float64
  | datetimeUs
  | utf8
  deriving DecidableEq, Repr

/-- A polars column: name, dtype, and cell values (`none` is a polars
null; numeric cell values are represented by integers). -/
abbrev PlColumn := String × PlDtype × List (Option Int)

/-- A polars DataFrame, column-oriented. -/
abbrev PlFrame := List PlColumn

/-- The (name, dtype) schema of a frame, in column order. -/
def frameSchema (f : PlFrame) : List (String × PlDtype) :=
  f.map (fun c => (c.1, c.2.1))

/-- Number of rows of a frame. -/
def frameHeight (f : PlFrame) : Nat :=
  match f with
  | [] => 0
  | c :: _ => c.2.2.length

/-- `df.is_empty()`. -/
def frameIsEmpty (f : PlFrame) : Bool := frameHeight f == 0

/-- Python dict assignment `d[k] = v`: overwrite in place when the key
exists, append otherwise. -/
def pyDictInsert {β : Type} (d : List (String × β)) (k : String) (v : β) :
    List (String × β) :=
  if d.any (fun p => p.1 == k) then
    d.map (fun p => if p.1 == k then (k, v) else p)
  else d ++ [(k, v)]

/-- Association-list lookup, modelling Python `d.get(k)` / `k in d`. -/
def lookupAssoc {β : Type} (d : List (String × β)) (k : String) : Option β :=
  (d.find? (fun p => p.1 == k)).map (fun p => p.2)

/-- `OPENMETEO_VARIABLES` from `elt/extraction/weather.py`. -/
def OPENMETEO_VARIABLES : List (String × String) :=
  [("prcp", "precipitation"),
   ("temp", "temperature_2m"),
   ("humidity", "relative_humidity_2m"),
   ("wind_u", "wind_speed_10m"),
   ("wind_v", "wind_direction_10m"),
   ("wind_speed", "wind_speed_10m"),
   ("wind_direction", "wind_direction_10m"),
   ("rsds", "shortwave_radiation"),
   ("rlds", "terrestrial_radiation"),
   ("psurf", "surface_pressure"),
   ("pet", "et0_fao_evapotranspiration")]

/-- The default variable list used when `variables is None`. -/
def default_weather_variables : List String :=
  ["prcp", "temp", "humidity", "wind_speed", "wind_direction"]

/-- The schema dict built in the `except httpx.HTTPError` branch of
`fetch_weather_forcing` (base columns, then `schema[var] = pl.Float64`
for each requested variable). -/
def empty_weather_schema (varList : List String) :
    List (String × PlDtype) :=
  varList.foldl (fun s v => pyDictInsert s v PlDtype.float64)
    [("longitude", PlDtype.float64), ("latitude", PlDtype.float64),
     ("datetime", PlDtype.datetimeUs)]

/-- `pl.DataFrame(schema=s)`: the given columns with zero rows. -/
def emptyFrameOfSchema (s : List (String × PlDtype)) : PlFrame :=
  s.map (fun p => (p.1, p.2, ([] : List (Option Int))))

/-- The `hourly` object of one Open-Meteo response: JSON keys mapped to
value series; the "time" entry holds the (already decoded) timestamps.
Python's `response.get("hourly", {})` yields the empty list. -/
structure OMResponse where
  hourly : List (String × List (Option Int))

/-- The decoded JSON body: a single response object or a list of them
(`isinstance(data, list)`). -/
inductive OMData where
  | single (r : OMResponse)
  | multiple (rs : List OMResponse)

/-- `_parse_response` from `elt/extraction/weather.py`: empty frame when
`hourly` is missing/empty or has no "time" key; otherwise the
longitude/latitude/datetime columns followed by each requested variable
whose Open-Meteo name occurs in `hourly` (dict-insert semantics); the
`str.to_datetime` cast is reflected by the datetime column's dtype. -/
def parse_response (resp : OMResponse) (longitude latitude : Int)
    (varList : List String) : PlFrame :=
  match lookupAssoc resp.hourly "time" with
  | none => []
  | some time =>
      let n := time.length
      let base : List (String × PlDtype × List (Option Int)) :=
        [("longitude", PlDtype.float64, List.replicate n (some longitude)),
         ("latitude", PlDtype.float64, List.replicate n (some latitude)),
         ("datetime", PlDtype.datetimeUs, time)]
      varList.foldl (fun d v =>
        let om := (lookupAssoc OPENMETEO_VARIABLES v).getD v
        match lookupAssoc resp.hourly om with
        | some vals => pyDictInsert d v (PlDtype.float64, vals)
        | none => d) base

/-- The union schema of `pl.concat(how="diagonal")`, columns in
first-seen order. -/
def unionSchema (fs : List PlFrame) : List (String × PlDtype) :=
  fs.foldl (fun acc f =>
    f.foldl (fun acc2 c =>
      if acc2.any (fun p => p.1 == c.1) then acc2
      else acc2 ++ [(c.1, c.2.1)]) acc) []

/-- Values a frame contributes to a column of the union schema: its own
values, or nulls when it lacks the column. -/
def columnValues (f : PlFrame) (name : String) : List (Option Int) :=
  match f.find? (fun c => c.1 == name) with
  | some c => c.2.2
  | none => List.replicate (frameHeight f) none

/-- `pl.concat(all_dfs, how="diagonal")`. -/
def concatDiagonal (fs : List PlFrame) : PlFrame :=
  (unionSchema fs).map (fun p =>
    (p.1, p.2, (fs.map (fun f => columnValues f p.1)).flatten))

/-- The post-request part of `fetch_weather_forcing`: parse each response
with its coordinates, keep the non-empty frames, and concatenate them
diagonally; an all-empty result falls back to the empty schema frame. -/
def fetch_weather_success (data : OMData) (lons lats : List Int)
    (varList : List String) : PlFrame :=
  match data with
  | OMData.multiple rs =>
      let all_dfs := ((rs.zip (lons.zip lats)).map (fun p =>
          parse_response p.1 p.2.1 p.2.2 varList)).filter
        (fun df => !(frameIsEmpty df))
      if all_dfs.isEmpty then
        emptyFrameOfSchema (empty_weather_schema varList)
      else concatDiagonal all_dfs
  | OMData.single r =>
      parse_response r (lons.headD 0) (lats.headD 0) varList

/-- An `httpx.HTTPError` raised by the Open-Meteo request. -/
structure HttpError where
  message : String

/-- `fetch_weather_forcing` from `elt/extraction/weather.py`, as a
function of the outcome of the HTTP request; `lons`/`lats` are the
coordinate lists the code splits off the `coordinates` argument. -/
def fetch_weather_forcing (lons lats : List Int)
    (httpResult : Except HttpError OMData)
    (varList : Option (List String)) : PlFrame :=
  let vars := varList.getD default_weather_variables
  match httpResult with
  | Except.error _ => emptyFrameOfSchema (empty_weather_schema vars)
  | Except.ok data => fetch_weather_success data lons lats vars

theorem pyDictInsert_fresh {β : Type} (d : List (String × β)) (k : String)
    (v : β) (h : ∀ p ∈ d, p.1 ≠ k) :
    pyDictInsert d k v = d ++ [(k, v)] := by
  unfold pyDictInsert
  have hany : d.any (fun p => p.1 == k) = false := by
    rw [List.any_eq_false]
    intro p hp
    simpa using h p hp
  rw [hany]
  simp

theorem foldl_pyDictInsert_fresh {β : Type} (vars : List String)
    (acc : List (String × β)) (f : String → β) (hnd : vars.Nodup)
    (hdisj : ∀ v ∈ vars, ∀ p ∈ acc, p.1 ≠ v) :
    vars.foldl (fun s v => pyDictInsert s v (f v)) acc =
      acc ++ vars.map (fun v => (v, f v)) := by
  induction vars generalizing acc with
  | nil => simp
  | cons v vs ih =>
      simp only [List.foldl_cons, List.map_cons]
      rw [pyDictInsert_fresh acc v (f v)
        (fun p hp => hdisj v (List.mem_cons_self v vs) p hp)]
      rw [ih (acc ++ [(v, f v)]) (List.nodup_cons.mp hnd).2 ?_]
      · simp
      · intro u hu p hp
        rcases List.mem_append.mp hp with hp1 | hp1
        · exact hdisj u (List.mem_cons_of_mem v hu) p hp1
        · rw [List.mem_singleton] at hp1
          subst hp1
          intro he
          refine (List.nodup_cons.mp hnd).1 ?_
          rw [show v = u from he]
          exact hu

/-- C9: when the Open-Meteo request raises `httpx.HTTPError`,
`fetch_weather_forcing` returns (instead of propagating) an empty
DataFrame whose schema is exactly longitude Float64, latitude Float64,
microsecond-datetime `datetime`, plus one Float64 column per requested
variable in request order. -/
theorem fetch_weather_forcing_http_error (lons lats : List Int)
    (e : HttpError) (vars : List String) (hnd : vars.Nodup)
    (hbase : ∀ v ∈ vars, v ∉ ["longitude", "latitude", "datetime"]) :
    frameSchema (fetch_weather_forcing lons lats (Except.error e)
        (some vars)) =
      [("longitude", PlDtype.float64), ("latitude", PlDtype.float64),
        ("datetime", PlDtype.datetimeUs)] ++
        vars.map (fun v => (v, PlDtype.float64)) ∧
    ∀ c ∈ fetch_weather_forcing lons lats (Except.error e) (some vars),
      c.2.2 = ([] : List (Option Int)) := by
  have hschema : empty_weather_schema vars =
      [("longitude", PlDtype.float64), ("latitude", PlDtype.float64),
        ("datetime", PlDtype.datetimeUs)] ++
        vars.map (fun v => (v, PlDtype.float64)) := by
    unfold empty_weather_schema
    have hd : ∀ v ∈ vars,
        ∀ p ∈ [("longitude", PlDtype.float64),
          ("latitude", PlDtype.float64),
          ("datetime", PlDtype.datetimeUs)], p.1 ≠ v := by
      intro v hv p hp
      have hb := hbase v hv
      simp only [List.mem_cons, List.mem_singleton, not_or] at hb
      fin_cases hp
      · exact fun he => hb.1 he.symm
      · exact fun he => hb.2.1 he.symm
      · exact fun he => hb.2.2.1 he.symm
    simpa using foldl_pyDictInsert_fresh vars _ (fun _ => PlDtype.float64)
      hnd hd
  constructor
  · show frameSchema (emptyFrameOfSchema (empty_weather_schema vars)) = _
    rw [hschema]
    simp [frameSchema, emptyFrameOfSchema, List.map_map, Function.comp]
  · intro c hc
    have hc2 : c ∈ emptyFrameOfSchema (empty_weather_schema vars) := hc
    simp only [emptyFrameOfSchema, List.mem_map] at hc2
    obtain ⟨p, _, hpc⟩ := hc2
    rw [← hpc]

theorem fetch_weather_forcing_http_error_witness :
    ((["prcp", "temp"] : List String).Nodup ∧
      ∀ v ∈ (["prcp", "temp"] : List String),
        v ∉ (["longitude", "latitude", "datetime"] : List String)) ∧
    frameSchema (fetch_weather_forcing [] [] (Except.error ⟨"timeout"⟩)
        (some ["prcp", "temp"])) =
      [("longitude", PlDtype.float64), ("latitude", PlDtype.float64),
        ("datetime", PlDtype.datetimeUs)] ++
        (["prcp", "temp"] : List String).map
          (fun v => (v, PlDtype.float64)) :=
  ⟨⟨by decide, by decide⟩,
    (fetch_weather_forcing_http_error [] [] ⟨"timeout"⟩ ["prcp", "temp"]
      (by decide) (by decide)).1⟩

/-- UTF-8 encoding of one character (as in Python `str.encode()`). -/
def utf8EncodeCharNat (c : Char) : List Nat :=
  let n := c.toNat
  if n < 0x80 then [n]
  else if n < 0x800 then [0xC0 + n / 0x40, 0x80 + n % 0x40]
  else if n < 0x10000 then
    [0xE0 + n / 0x1000, 0x80 + n / 0x40 % 0x40, 0x80 + n % 0x40]
  else
    [0xF0 + n / 0x40000, 0x80 + n / 0x1000 % 0x40, 0x80 + n / 0x40 % 0x40,
     0x80 + n % 0x40]

/-- UTF-8 bytes of a string. -/
def utf8Bytes (s : String) : List Nat :=
  (s.data.map utf8EncodeCharNat).flatten

/-- The 32-bit modulus. -/
def w32 : Nat := 2 ^ 32

/-- 32-bit rotate right. -/
def rotr32 (x n : Nat) : Nat :=
  (x / 2 ^ n + x % 2 ^ n * 2 ^ (32 - n)) % w32

/-- Logical shift right. -/
def shr32 (x n : Nat) : Nat := x / 2 ^ n

/-- 32-bit complement. -/
def not32 (x : Nat) : Nat := (w32 - 1) ^^^ (x % w32)

def bigSigma0 (x : Nat) : Nat := rotr32 x 2 ^^^ rotr32 x 13 ^^^ rotr32 x 22

def bigSigma1 (x : Nat) : Nat := rotr32 x 6 ^^^ rotr32 x 11 ^^^ rotr32 x 25

def smallSigma0 (x : Nat) : Nat := rotr32 x 7 ^^^ rotr32 x 18 ^^^ shr32 x 3

def smallSigma1 (x : Nat) : Nat := rotr32 x 17 ^^^ rotr32 x 19 ^^^ shr32 x 10

def chFn (x y z : Nat) : Nat := (x &&& y) ^^^ (not32 x &&& z)

def majFn (x y z : Nat) : Nat := (x &&& y) ^^^ (x &&& z) ^^^ (y &&& z)

/-- The 64 SHA-256 round constants (FIPS 180-4, written in decimal). -/
def shaK : List Nat :=
  [1116352408, 1899447441, 3049323471, 3921009573, 961987163,
   1508970993, 2453635748, 2870763221, 3624381080, 310598401,
   607225278, 1426881987, 1925078388, 2162078206, 2614888103,
   3248222580, 3835390401, 4022224774, 264347078, 604807628,
   770255983, 1249150122, 1555081692, 1996064986, 2554220882,
   2821834349, 2952996808, 3210313671, 3336571891, 3584528711,
   113926993, 338241895, 666307205, 773529912, 1294757372,
   1396182291, 1695183700, 1986661051, 2177026350, 2456956037,
   2730485921, 2820302411, 3259730800, 3345764771, 3516065817,
   3600352804, 4094571909, 275423344, 430227734, 506948616,
   659060556, 883997877, 958139571, 1322822218, 1537002063,
   1747873779, 1955562222, 2024104815, 2227730452, 2361852424,
   2428436474, 2756734187, 3204031479, 3329325298]

/-- The eight SHA-256 initial hash words (FIPS 180-4, in decimal). -/
def shaH0 : List Nat :=
  [1779033703, 3144134277, 1013904242, 2773480762,
   1359893119, 2600822924, 528734635, 1541459225]

/-- Big-endian byte decomposition of `n` into `k` bytes. -/
def toBytesBE (k n : Nat) : List Nat :=
  (List.range k).map (fun i => n / 2 ^ (8 * (k - 1 - i)) % 256)

/-- SHA-256 message padding: a 0x80 byte, zeros to 56 mod 64, and the
bit length as eight big-endian bytes. -/
def sha256pad (msg : List Nat) : List Nat :=
  let len := msg.length
  let padZeros := (64 - (len + 9) % 64) % 64
  msg ++ [0x80] ++ List.replicate padZeros 0 ++ toBytesBE 8 (8 * len)

/-- Big-endian 32-bit words from a byte list. -/
def bytesToWords : List Nat → List Nat
  | b0 :: b1 :: b2 :: b3 :: rest =>
      (((b0 * 256 + b1) * 256 + b2) * 256 + b3) :: bytesToWords rest
  | _ => []

/-- Split a word list into 16-word blocks. -/
def chunkWords (ws : List Nat) : List (List Nat) :=
  if h : ws = [] then []
  else ws.take 16 :: chunkWords (ws.drop 16)
termination_by ws.length
decreasing_by
  simp only [List.length_drop]
  have hpos : 0 < ws.length := List.length_pos.mpr h
  omega

/-- Indexed word access with 0 default. -/
def wAt (ws : List Nat) (i : Nat) : Nat := ws.getD i 0

/-- Extend a 16-word block to the 64-word message schedule. -/
def extendWords (block : List Nat) : List Nat :=
  (List.range 48).foldl (fun ws _ =>
    let i := ws.length
    ws ++ [(wAt ws (i - 16) + smallSigma0 (wAt ws (i - 15)) +
      wAt ws (i - 7) + smallSigma1 (wAt ws (i - 2))) % w32]) block

/-- The eight 32-bit working registers of SHA-256. -/
structure Hash8 where
  a : Nat
  b : Nat
  c : Nat
  d : Nat
  e : Nat
  f : Nat
  g : Nat
  h : Nat

def hash8OfList (l : List Nat) : Hash8 :=
  ⟨wAt l 0, wAt l 1, wAt l 2, wAt l 3, wAt l 4, wAt l 5, wAt l 6, wAt l 7⟩

/-- One SHA-256 compression round. -/
def compressStep (k w : Nat) (st : Hash8) : Hash8 :=
  let t1 := (st.h + bigSigma1 st.e + chFn st.e st.f st.g + k + w) % w32
  let t2 := (bigSigma0 st.a + majFn st.a st.b st.c) % w32
  ⟨(t1 + t2) % w32, st.a, st.b, st.c, (st.d + t1) % w32, st.e, st.f, st.g⟩

/-- Compress one 512-bit block into the hash state. -/
def compressBlock (hs : List Nat) (block : List Nat) : List Nat :=
  let w := extendWords block
  let init := hash8OfList hs
  let fin := (List.range 64).foldl
    (fun st i => compressStep (wAt shaK i) (wAt w i) st) init
  [(init.a + fin.a) % w32, (init.b + fin.b) % w32, (init.c + fin.c) % w32,
   (init.d + fin.d) % w32, (init.e + fin.e) % w32, (init.f + fin.f) % w32,
   (init.g + fin.g) % w32, (init.h + fin.h) % w32]

/-- SHA-256 of a byte list, as eight 32-bit words. -/
def sha256 (msg : List Nat) : List Nat :=
  (chunkWords (bytesToWords (sha256pad msg))).foldl compressBlock shaH0

/-- Lowercase hexadecimal digit. -/
def hexDigit (n : Nat) : Char :=
  if n < 10 then Char.ofNat (48 + n) else Char.ofNat (87 + n)

/-- Eight-digit lowercase hex rendering of a 32-bit word. -/
def toHexWord32 (n : Nat) : String :=
  String.mk ((List.range 8).map (fun i => hexDigit (n / 16 ^ (7 - i) % 16)))

/-- `hashlib.sha256(...).hexdigest()`. -/
def sha256hexdigest (msg : List Nat) : String :=
  String.join ((sha256 msg).map toHexWord32)

/-- JSON string escaping (quote and backslash; other characters of DuckDB
identifiers and type names need no escaping). -/
def jsonEscapeChar (c : Char) : List Char :=
  if c = '"' then ['\\', '"']
  else if c = '\\' then ['\\', '\\']
  else [c]

def jsonString (s : String) : String :=
  "\"" ++ String.mk ((s.data.map jsonEscapeChar).flatten) ++ "\""

/-- `json.dumps(d, sort_keys=True)` applied to an already key-sorted
string-to-string dict, with CPython's default separators. -/
def jsonObjectSorted (d : List (String × String)) : String :=
  "\x7b" ++ String.intercalate ", "
    (d.map (fun p => jsonString p.1 ++ ": " ++ jsonString p.2)) ++ "\x7d"

/-- The dict comprehension `{col: dtype for col, dtype in schema_info}`. -/
def buildSchemaDict (schema_info : List (String × String)) :
    List (String × String) :=
  schema_info.foldl (fun d p => pyDictInsert d p.1 p.2) []

/-- Key order used by `sort_keys=True`. -/
def keyLe (a b : String × String) : Prop := a.1 ≤ b.1

instance : DecidableRel keyLe :=
  fun a b => inferInstanceAs (Decidable (a.1 ≤ b.1))

/-- Sorting of the dict entries performed by `sort_keys=True`. -/
def sortByKey (d : List (String × String)) : List (String × String) :=
  List.insertionSort keyLe d

/-- `get_schema_fingerprint` from `scripts/upload_dataset.py` (identical
in `orchestration/assets/wandb_dataset.py`), as a function of the
`(column_name, data_type)` rows returned by `information_schema.columns`
in ordinal-position order: the first 12 hex digits of the SHA-256 of the
key-sorted JSON encoding of the name-to-type dict. -/
def get_schema_fingerprint (schema_info : List (String × String)) : String :=
  (sha256hexdigest (utf8Bytes (jsonObjectSorted (sortByKey
    (buildSchemaDict schema_info))))).take 12

theorem foldl_pyDictInsert_pairs (l acc : List (String × String))
    (hnd : (l.map Prod.fst).Nodup)
    (hdisj : ∀ p ∈ l, ∀ q ∈ acc, q.1 ≠ p.1) :
    l.foldl (fun d p => pyDictInsert d p.1 p.2) acc = acc ++ l := by
  induction l generalizing acc with
  | nil => simp
  | cons p l ih =>
      simp only [List.map_cons, List.nodup_cons] at hnd
      simp only [List.foldl_cons]
      rw [pyDictInsert_fresh acc p.1 p.2
        (fun q hq => hdisj p (List.mem_cons_self p l) q hq)]
      rw [ih (acc ++ [(p.1, p.2)]) hnd.2 ?_]
      · simp
      · intro r hr q hq
        rcases List.mem_append.mp hq with hq1 | hq1
        · exact hdisj r (List.mem_cons_of_mem p hr) q hq1
        · rw [List.mem_singleton] at hq1
          subst hq1
          intro he
          exact hnd.1 (by rw [show p.1 = r.1 from he]; exact List.mem_map_of_mem Prod.fst hr)

theorem buildSchemaDict_eq_self (l : List (String × String))
    (hnd : (l.map Prod.fst).Nodup) : buildSchemaDict l = l := by
  unfold buildSchemaDict
  rw [foldl_pyDictInsert_pairs l [] hnd (by simp)]
  simp

theorem sortByKey_perm_congr (l1 l2 : List (String × String))
    (hperm : l1.Perm l2) (hnd : (l1.map Prod.fst).Nodup) :
    sortByKey l1 = sortByKey l2 := by
  haveI htot : IsTotal (String × String) keyLe := ⟨fun a b => le_total a.1 b.1⟩
  haveI htr : IsTrans (String × String) keyLe :=
    ⟨fun a b c hab hbc => le_trans hab hbc⟩
  haveI hanti : IsAntisymm (String × String) (fun a b => a.1 < b.1) :=
    ⟨fun a b h1 h2 => absurd h1 (lt_asymm h2)⟩
  have hp1 : List.Perm (sortByKey l1) l1 := List.perm_insertionSort keyLe l1
  have hp2 : List.Perm (sortByKey l2) l2 := List.perm_insertionSort keyLe l2
  have hps : List.Perm (sortByKey l1) (sortByKey l2) :=
    hp1.trans (hperm.trans hp2.symm)
  have hs1 : (sortByKey l1).Sorted keyLe := List.sorted_insertionSort keyLe l1
  have hs2 : (sortByKey l2).Sorted keyLe := List.sorted_insertionSort keyLe l2
  have hnd1 : ((sortByKey l1).map Prod.fst).Nodup :=
    ((hp1.map Prod.fst).nodup_iff).mpr hnd
  have hnd2 : ((sortByKey l2).map Prod.fst).Nodup :=
    ((hp2.map Prod.fst).nodup_iff).mpr
      (((hperm.map Prod.fst).nodup_iff).mp hnd)
  have hlt : ∀ s : List (String × String), s.Sorted keyLe →
      (s.map Prod.fst).Nodup → s.Sorted (fun a b => a.1 < b.1) := by
    intro s hs hn
    rw [List.Nodup, List.pairwise_map] at hn
    exact (hs.and hn).imp (fun hab => lt_of_le_of_ne hab.1 hab.2)
  exact List.eq_of_perm_of_sorted hps (hlt _ hs1 hnd1) (hlt _ hs2 hnd2)

/-- C10: `get_schema_fingerprint` is deterministic and insensitive to the
ordinal order in which the columns are listed: two runs over equal
column-name-to-data-type mappings return the same fingerprint, namely the
first 12 hex digits of the SHA-256 of the key-sorted JSON encoding of the
mapping. -/
theorem get_schema_fingerprint_order_insensitive
    (l1 l2 : List (String × String)) (hperm : l1.Perm l2)
    (hnd : (l1.map Prod.fst).Nodup) :
    get_schema_fingerprint l1 = get_schema_fingerprint l2 ∧
    get_schema_fingerprint l1 =
      (sha256hexdigest (utf8Bytes (jsonObjectSorted (sortByKey
        (buildSchemaDict l1))))).take 12 := by
  refine ⟨?_, rfl⟩
  unfold get_schema_fingerprint
  rw [buildSchemaDict_eq_self l1 hnd,
    buildSchemaDict_eq_self l2 (((hperm.map Prod.fst).nodup_iff).mp hnd),
    sortByKey_perm_congr l1 l2 hperm hnd]

theorem get_schema_fingerprint_order_insensitive_witness :
    (([("observation_hour", "TIMESTAMP"), ("site_id", "VARCHAR")] :
        List (String × String)).Perm
      [("site_id", "VARCHAR"), ("observation_hour", "TIMESTAMP")] ∧
      (([("observation_hour", "TIMESTAMP"), ("site_id", "VARCHAR")] :
        List (String × String)).map Prod.fst).Nodup) ∧
    get_schema_fingerprint
        [("observation_hour", "TIMESTAMP"), ("site_id", "VARCHAR")] =
      get_schema_fingerprint
        [("site_id", "VARCHAR"), ("observation_hour", "TIMESTAMP")] :=
  ⟨⟨List.Perm.swap ("site_id", "VARCHAR") ("observation_hour", "TIMESTAMP") [],
      by decide⟩,
    (get_schema_fingerprint_order_insensitive
      [("observation_hour", "TIMESTAMP"), ("site_id", "VARCHAR")]
      [("site_id", "VARCHAR"), ("observation_hour", "TIMESTAMP")]
      (List.Perm.swap ("site_id", "VARCHAR") ("observation_hour", "TIMESTAMP")
        [])
      (by decide)).1⟩

end FloodForecasting
